import Mathlib

/-!
# MINDMESH autonomous-browsing core: a shallow embedding with proofs

This file embeds the planner / validation / run-loop core of the MINDMESH
repository in Lean and proves (or refutes) the specification claims about it.

Embedded source files:
* `src/server/routes/agent-step.ts` — zod action schema, allowlist and
  restricted-URL checks, the deterministic fallback planner inside
  `callLocalModel`, and the `handleAgentStep` request handler
  (namespace `AgentStepRoute`);
* `src/server/local-model.ts` — the on-device pipeline cache
  `ensureGenerationPipeline` and `deterministicPlanner`
  (namespace `LocalModel`);
* the `AutonomousBrowsingAgent` state machine (namespace `AgentLoop`).

Modelling conventions:
* JS strings are Lean `String`s; `toLowerCase`, `trim`, `includes`,
  `endsWith`, `startsWith`, `slice` are modelled on `String.data`
  (`lowerStr`, `jsTrim`, `jsIncludes`, `jsEndsWith`, `jsStartsWith`,
  `jsSlice`).  JS `toLowerCase` is modelled with `Char.toLower`
  (ASCII case folding).
* JSON values are the inductive `Json`; JS numbers that the embedded code
  treats as integers (tab ids, step counters) are `Int`.
* The JS regexes of the planners are embedded through a small backtracking
  regex engine (`Rx`) with JS semantics: leftmost match, ordered
  alternation, greedy/lazy quantifiers, capture groups, word boundaries.
* `new URL(url).hostname` is not re-implemented; it is an abstract
  parameter `hostOf : String → String` (returning `""` when the URL does
  not parse), so every theorem quantifies over all possible hostname
  extractors.
* Asynchronous effects (model inference, HTTP) are oracles passed in as
  arguments; a thrown JS exception is an `Except.error`.
-/

/-! ## JS string primitives -/

/-- Model of `String.prototype.toLowerCase` (ASCII case folding). -/
def lowerStr (s : String) : String := ⟨s.data.map Char.toLower⟩

/-- Model of `String.prototype.trim`. -/
def jsTrim (s : String) : String :=
  ⟨((s.data.dropWhile Char.isWhitespace).reverse.dropWhile Char.isWhitespace).reverse⟩

/-- Model of `a.includes(b)` on strings. -/
def jsIncludes (s sub : String) : Bool := decide (sub.data <:+: s.data)

/-- Model of `a.endsWith(b)`. -/
def jsEndsWith (s suf : String) : Bool := decide (suf.data <:+ s.data)

/-- Model of `a.startsWith(b)`. -/
def jsStartsWith (s pre : String) : Bool := decide (pre.data <+: s.data)

/-- Model of `s.slice(0, n)`. -/
def jsSlice (s : String) (n : Nat) : String := ⟨s.data.take n⟩

/-- JS `||` on an optional string operand: an empty string is falsy. -/
def jsOr (a b : Option String) : Option String :=
  match a with
  | some s => if s = "" then b else some s
  | none => b

/-- JS `msg || dflt` for a present string. -/
def jsOrStr (msg dflt : String) : String := if msg = "" then dflt else msg

/-- `\w` of JS regexes: ASCII letters, digits and underscore. -/
def isWordChar (c : Char) : Bool := c.isAlphanum || c = '_'

/-! ## JSON values and zod-style parsing -/

/-- JSON values (numbers restricted to the integers the embedded code uses). -/
inductive Json where
  | null : Json
  | bool : Bool → Json
  | num : Int → Json
  | str : String → Json
  | arr : List Json → Json
  | obj : List (String × Json) → Json

/-- First field with the given key, mirroring JS property lookup. -/
def getField : List (String × Json) → String → Option Json
  | [], _ => none
  | (k, v) :: rest, key => if k = key then some v else getField rest key

def asStr : Json → Option String
  | .str s => some s
  | _ => none

def asBool : Json → Option Bool
  | .bool b => some b
  | _ => none

def asNum : Json → Option Int
  | .num n => some n
  | _ => none

def asObj : Json → Option (List (String × Json))
  | .obj fs => some fs
  | _ => none

def asArr : Json → Option (List Json)
  | .arr xs => some xs
  | _ => none

/-- `z.string().min(1)`. -/
def strMin1 (j : Json) : Option String :=
  match asStr j with
  | some s => if s = "" then none else some s
  | none => none

/-- An `.optional()` field: absent is fine, present must validate. -/
def optField (fs : List (String × Json)) (key : String) (p : Json → Option α) :
    Option (Option α) :=
  match getField fs key with
  | none => some none
  | some v => (p v).map some

/-- `z.record(z.string())`: object whose values are all strings. -/
def asStrRecord (j : Json) : Option (List (String × String)) :=
  match j with
  | .obj fs => fs.mapM (fun kv => (asStr kv.2).map (fun s => (kv.1, s)))
  | _ => none

/-- JS truthiness of a JSON value (`if (raw) ...`). -/
def jsTruthy : Json → Bool
  | .null => false
  | .bool b => b
  | .num n => n ≠ 0
  | .str s => s ≠ ""
  | .arr _ => true
  | .obj _ => true

/-- Escape a JSON string body the way `JSON.stringify` does (the cases the
embedded values can contain). -/
def jsonEscape (s : String) : String :=
  ⟨s.data.foldr (fun c acc =>
      if c = '"' then '\\' :: '"' :: acc
      else if c = '\\' then '\\' :: '\\' :: acc
      else if c = '\n' then '\\' :: 'n' :: acc
      else if c = '\r' then '\\' :: 'r' :: acc
      else if c = '\t' then '\\' :: 't' :: acc
      else c :: acc) []⟩

mutual

/-- `JSON.stringify` (used only for the ≤ 500 character debug excerpt). -/
def jsonStringify : Json → String
  | .null => "null"
  | .bool b => if b then "true" else "false"
  | .num n => toString n
  | .str s => "\"" ++ jsonEscape s ++ "\""
  | .arr xs => "[" ++ jsonStringifyList xs ++ "]"
  | .obj fs => "\x7b" ++ jsonStringifyFields fs ++ "\x7d"

def jsonStringifyList : List Json → String
  | [] => ""
  | [x] => jsonStringify x
  | x :: rest => jsonStringify x ++ "," ++ jsonStringifyList rest

def jsonStringifyFields : List (String × Json) → String
  | [] => ""
  | [(k, v)] => "\"" ++ jsonEscape k ++ "\":" ++ jsonStringify v
  | (k, v) :: rest =>
    "\"" ++ jsonEscape k ++ "\":" ++ jsonStringify v ++ "," ++ jsonStringifyFields rest

end

/-- `String(x)` for the non-object JSON values. -/
def jsToString : Json → String
  | .null => "null"
  | .bool b => if b then "true" else "false"
  | .num n => toString n
  | .str s => s
  | .arr xs => jsonStringify (.arr xs)
  | .obj fs => jsonStringify (.obj fs)

/-! ## A small backtracking regex engine with JS semantics

Patterns are embedded as `Rx.RE` values; `Rx.reM` is a continuation-passing
backtracking matcher (ordered alternation, greedy/lazy quantifiers, capture
groups, word boundaries, anchors), and `Rx.jsMatch` performs the leftmost
search that `String.prototype.match` does.  Recursion is fuelled; every
quantifier iteration must consume input (which is also how JS terminates
quantifiers on empty matches), so the generous fuel used by `jsMatch` is
never exhausted on the inputs the planners see. -/

namespace Rx

inductive RE where
  | cls (p : Char → Bool)
  | eps
  | cat (a b : RE)
  | alt (a b : RE)
  | star (a : RE) (lazyQ : Bool)
  | opt (a : RE) (lazyQ : Bool)
  | group (n : Nat) (a : RE)
  | wb
  | bos
  | eos

/-- Captured groups: group index paired with the captured text (most recent
first, as JS keeps only the last capture of a group). -/
abbrev Caps := List (Nat × String)

/-- The backtracking matcher.  `s` is the subject, `i` the current position,
`k` the continuation; the result is the captures of the first (in JS
backtracking order) overall success. -/
def reM (s : List Char) : Nat → RE → Nat → Caps → (Nat → Caps → Option Caps) → Option Caps
  | 0, _, _, _, _ => none
  | fuel + 1, re, i, caps, k =>
    match re with
    | .cls p =>
      match s[i]? with
      | some c => if p c then k (i + 1) caps else none
      | none => none
    | .eps => k i caps
    | .cat a b => reM s fuel a i caps fun j cs => reM s fuel b j cs k
    | .alt a b =>
      match reM s fuel a i caps k with
      | some r => some r
      | none => reM s fuel b i caps k
    | .opt a lazyQ =>
      if lazyQ then
        match k i caps with
        | some r => some r
        | none => reM s fuel a i caps k
      else
        match reM s fuel a i caps k with
        | some r => some r
        | none => k i caps
    | .star a lazyQ =>
      if lazyQ then
        match k i caps with
        | some r => some r
        | none =>
          reM s fuel a i caps fun j cs =>
            if i < j then reM s fuel (.star a lazyQ) j cs k else none
      else
        match reM s fuel a i caps (fun j cs =>
            if i < j then reM s fuel (.star a lazyQ) j cs k else none) with
        | some r => some r
        | none => k i caps
    | .group n a =>
      reM s fuel a i caps fun j cs => k j ((n, ⟨(s.drop i).take (j - i)⟩) :: cs)
    | .wb =>
      let wl := match i with
        | 0 => false
        | i' + 1 => ((s[i']?).map isWordChar).getD false
      let wr := ((s[i]?).map isWordChar).getD false
      if wl != wr then k i caps else none
    | .bos => if i = 0 then k i caps else none
    | .eos => if i = s.length then k i caps else none

/-- Fuel that is far more than the matcher can consume on one attempt for the
planner patterns (recursion depth is bounded by pattern size times input
length since every quantifier iteration consumes a character). -/
def bigFuel (s : List Char) : Nat := 2000 + 60 * s.length

/-- Try a match starting at positions `i, i+1, ...` (leftmost search). -/
def searchFrom (re : RE) (s : List Char) : Nat → Nat → Option Caps
  | 0, _ => none
  | tries + 1, i =>
    match reM s (bigFuel s) (.group 0 re) i [] (fun _ cs => some cs) with
    | some cs => some cs
    | none => if i < s.length then searchFrom re s tries (i + 1) else none

/-- Model of `input.match(re)`: captures of the leftmost match (group `0` is
the overall match), or `none`. -/
def jsMatch (re : RE) (input : String) : Option Caps :=
  searchFrom re input.data (input.data.length + 1) 0

/-- Model of `re.test(input)`. -/
def jsTest (re : RE) (input : String) : Bool := (jsMatch re input).isSome

/-- Group lookup on a match result (`m[n]`, `undefined` when absent). -/
def capGet (caps : Caps) (n : Nat) : Option String :=
  (caps.find? (fun kv => kv.1 == n)).map (·.2)

/-- Case-insensitive literal character (the planners' regexes all carry the
`i` flag). -/
def lit1 (c : Char) : RE := .cls (fun x => x.toLower == c.toLower)

/-- Case-insensitive literal string. -/
def lit (w : String) : RE := w.data.foldr (fun c acc => .cat (lit1 c) acc) .eps

/-- `r{n}` (exactly `n` copies). -/
def reps (r : RE) : Nat → RE
  | 0 => .eps
  | n + 1 => .cat r (reps r n)

/-- `r{n,}` greedy, `r{n,}?` lazy. -/
def atLeast (r : RE) (n : Nat) (lazyQ : Bool) : RE := .cat (reps r n) (.star r lazyQ)

/-- Ordered alternation of a list of branches. -/
def altN : List RE → RE
  | [] => .cls (fun _ => false)
  | [r] => r
  | r :: rest => .alt r (altN rest)

/-- JS `.` without the `s` flag: anything but a line terminator. -/
def dotC : RE := .cls (fun c => !(c = '\n' || c = '\r'))

/-- `\s`. -/
def wsC : RE := .cls Char.isWhitespace

/-- `[^\s]`. -/
def nonWsC : RE := .cls (fun c => !c.isWhitespace)

/-- `\d`. -/
def digitC : RE := .cls Char.isDigit

/-- `[\w.-]`. -/
def wordDotDashC : RE := .cls (fun c => isWordChar c || c = '.' || c = '-')

/-- `[a-z0-9.-]` under the `i` flag. -/
def hostC : RE := .cls (fun c =>
  ('a' ≤ c.toLower && c.toLower ≤ 'z') || c.isDigit || c = '.' || c = '-')

/-- `[a-z]` under the `i` flag. -/
def azC : RE := .cls (fun c => 'a' ≤ c.toLower && c.toLower ≤ 'z')

end Rx

/-! ## The planner regexes -/

namespace Rx

/-- `/(?:search for|find|search)\s+(.{2,})/i`. -/
def searchRe : RE :=
  .cat (altN [lit "search for", lit "find", lit "search"])
    (.cat (atLeast wsC 1 false) (.group 1 (atLeast dotC 2 false)))

/-- `/(.{3,}?)\s+(?:under|below)\s+(\d{2,}(?:,\d{3})*)(?:\s*(rupees|inr|rs)?)?/i`. -/
def priceRe : RE :=
  .cat (.group 1 (atLeast dotC 3 true))
  (.cat (atLeast wsC 1 false)
  (.cat (altN [lit "under", lit "below"])
  (.cat (atLeast wsC 1 false)
  (.cat (.group 2 (.cat (atLeast digitC 2 false)
                        (.star (.cat (lit1 ',') (reps digitC 3)) false)))
        (.opt (.cat (.star wsC false)
                    (.opt (.group 3 (altN [lit "rupees", lit "inr", lit "rs"])) false))
              false)))))

/-- `/open\s+(https?:\/\/)?([\w.-]+)(\/.+)?/i`. -/
def openRe : RE :=
  .cat (lit "open")
  (.cat (atLeast wsC 1 false)
  (.cat (.opt (.group 1 (.cat (lit "http") (.cat (.opt (lit1 's') false) (lit "://")))) false)
  (.cat (.group 2 (atLeast wordDotDashC 1 false))
        (.opt (.group 3 (.cat (lit1 '/') (atLeast dotC 1 false))) false))))

/-- `/(?:https?:\/\/[^\s]+|(?:www\.)?[a-z0-9.-]+\.[a-z]{2,}(?:\/[^\s]*)?)/i`
(`urlRegex` of `local-model.ts`). -/
def urlRegex : RE :=
  .alt (.cat (lit "http") (.cat (.opt (lit1 's') false)
                                (.cat (lit "://") (atLeast nonWsC 1 false))))
       (.cat (.opt (lit "www.") false)
       (.cat (atLeast hostC 1 false)
       (.cat (lit1 '.')
       (.cat (atLeast azC 2 false)
             (.opt (.cat (lit1 '/') (.star nonWsC false)) false)))))

/-- `/(?:on\s+)?(amazon(?:\.in|\.com|\.co\.uk|\.de|\.ca)?)\b/i`. -/
def amazonRe : RE :=
  .cat (.opt (.cat (lit "on") (atLeast wsC 1 false)) false)
  (.cat (.group 1 (.cat (lit "amazon")
          (.opt (altN [lit ".in", lit ".com", lit ".co.uk", lit ".de", lit ".ca"]) false)))
        .wb)

/-- `/on\s+([\w.-]+\.(?:com|in|co|net|org|co\.uk|de|ca))/i`. -/
def siteRe : RE :=
  .cat (lit "on")
  (.cat (atLeast wsC 1 false)
    (.group 1 (.cat (atLeast wordDotDashC 1 false)
      (.cat (lit1 '.')
            (altN [lit "com", lit "in", lit "co", lit "net", lit "org",
                   lit "co.uk", lit "de", lit "ca"])))))

/-- `/^https?:\/\//i`. -/
def httpSchemeRe : RE :=
  .cat .bos (.cat (lit "http") (.cat (.opt (lit1 's') false) (lit "://")))

/-- `/^amazon(\.|$)/i`. -/
def amazonStartRe : RE :=
  .cat .bos (.cat (lit "amazon") (.alt (lit1 '.') .eos))

/-- `/amazon/i`. -/
def amazonAnywhereRe : RE := lit "amazon"

end Rx

/-! ## encodeURIComponent -/

/-- Characters `encodeURIComponent` leaves unescaped. -/
def uriUnreserved (c : Char) : Bool :=
  c.isAlphanum || c = '-' || c = '_' || c = '.' || c = '!' || c = '~' || c = '*' ||
    c.toNat = 39 || c = '(' || c = ')'

/-- UTF-8 bytes of a character. -/
def utf8Bytes (c : Char) : List Nat :=
  let n := c.toNat
  if n < 0x80 then [n]
  else if n < 0x800 then [0xC0 + n / 64, 0x80 + n % 64]
  else if n < 0x10000 then [0xE0 + n / 4096, 0x80 + (n / 64) % 64, 0x80 + n % 64]
  else [0xF0 + n / 262144, 0x80 + (n / 4096) % 64, 0x80 + (n / 64) % 64, 0x80 + n % 64]

/-- Uppercase hex digit. -/
def hexDigit (n : Nat) : Char := if n < 10 then Char.ofNat (48 + n) else Char.ofNat (55 + n)

/-- `%HH` escape of one byte. -/
def pctByte (b : Nat) : List Char := ['%', hexDigit (b / 16), hexDigit (b % 16)]

/-- Model of JS `encodeURIComponent`. -/
def encodeURIComponent (s : String) : String :=
  ⟨s.data.foldr (fun c acc =>
      (if uriUnreserved c then [c] else (utf8Bytes c).foldr (fun b a => pctByte b ++ a) []) ++ acc)
    []⟩

/-- `price.replace(/,/g, "")`. -/
def stripCommas (s : String) : String := ⟨s.data.filter (fun c => c ≠ ',')⟩

/-! ## `src/server/routes/agent-step.ts` -/

namespace AgentStepRoute

/-- The validated actions of `ActionSchema` (a zod discriminated union on
`type`); each constructor carries exactly the fields the corresponding
branch validates (`passthrough` extra fields do not affect acceptance and
are not consulted afterwards). -/
inductive JsAction where
  | open_tab (url : String)
  | navigate (url : String) (tabId : Option Int)
  | click (tabId : Option Int) (selector : Option String) (text : Option String)
  | fill_form (tabId : Option Int) (fields : List (String × String))
  | extract (mode : Option String) (selector : Option String)
  | close_tab (tabId : Int)
  | finish (reason : Option String)
deriving DecidableEq

/-- `ActionSchema.safeParse`. -/
def parseAction (j : Json) : Option JsAction :=
  match j with
  | .obj fs =>
    match getField fs "type", (getField fs "data").bind asObj with
    | some (.str t), some d =>
      if t = "open_tab" then
        match (getField d "url").bind strMin1 with
        | some url => some (.open_tab url)
        | none => none
      else if t = "navigate" then
        match (getField d "url").bind strMin1, optField d "tabId" asNum with
        | some url, some tid => some (.navigate url tid)
        | _, _ => none
      else if t = "click" then
        match optField d "tabId" asNum, optField d "selector" strMin1,
              optField d "text" strMin1 with
        | some tid, some sel, some tx =>
          if sel.isSome || tx.isSome then some (.click tid sel tx) else none
        | _, _, _ => none
      else if t = "fill_form" then
        match optField d "tabId" asNum, (getField d "fields").bind asStrRecord with
        | some tid, some fields =>
          if fields.length > 0 then some (.fill_form tid fields) else none
        | _, _ => none
      else if t = "extract" then
        match optField d "mode" asStr, optField d "selector" asStr with
        | some m, some sel => some (.extract m sel)
        | _, _ => none
      else if t = "close_tab" then
        match (getField d "tabId").bind asNum with
        | some tid => some (.close_tab tid)
        | none => none
      else if t = "finish" then
        match optField d "reason" asStr with
        | some r => some (.finish r)
        | none => none
      else none
    | _, _ => none
  | _ => none

/-- The result of `ModelStepSchema.safeParse` on success. -/
structure ModelStep where
  done : Bool
  action : Option JsAction
  reason : Option String
deriving DecidableEq

/-- `ModelStepSchema.safeParse` (`done` is `optional().default(false)`). -/
def parseModelStep (j : Json) : Option ModelStep :=
  match j with
  | .obj fs =>
    match optField fs "done" asBool, optField fs "action" parseAction,
          optField fs "reason" asStr with
    | some d, some a, some r => some ⟨d.getD false, a, r⟩
    | _, _, _ => none
  | _ => none

/-- The request fields of `StepRequestSchema` the handler consults
(`snapshot` and `history` are validated, then only forwarded to the
backends). -/
structure StepRequest where
  goal : String
  allowlistDomains : List String
  step : Int
  snapshot : Json
  history : List Json

/-- Element check of `StepRequestSchema`'s `history` array
(`z.object({action?, result?})`: any object is accepted). -/
def historyElemOk (j : Json) : Bool :=
  match j with
  | .obj _ => true
  | _ => false

/-- An optional string field of the snapshot object. -/
def optStrOk (fs : List (String × Json)) (key : String) : Bool :=
  match getField fs key with
  | none => true
  | some v => (asStr v).isSome

/-- One entry of `snapshot.links`: `{ href: string, text?: string }`. -/
def linkElemOk (j : Json) : Bool :=
  match j with
  | .obj fs => ((getField fs "href").bind asStr).isSome && optStrOk fs "text"
  | _ => false

/-- `StepRequestSchema`'s `snapshot` object. -/
def snapshotOk (j : Json) : Bool :=
  match j with
  | .obj fs =>
    optStrOk fs "url" && optStrOk fs "title" && optStrOk fs "text" &&
      (match getField fs "links" with
       | none => true
       | some v =>
         match asArr v with
         | some xs => xs.all linkElemOk
         | none => false)
  | _ => false

/-- `StepRequestSchema.safeParse`. -/
def parseStepRequest (j : Json) : Option StepRequest :=
  match j with
  | .obj fs =>
    match (getField fs "goal").bind strMin1 with
    | none => none
    | some goal =>
      match optField fs "allowlistDomains"
            (fun v => (asArr v).bind (fun xs => xs.mapM asStr)) with
      | none => none
      | some allow =>
        match optField fs "step"
              (fun v => (asNum v).bind (fun n => if 0 ≤ n ∧ n ≤ 100 then some n else none)) with
        | none => none
        | some step =>
          match optField fs "history"
                (fun v => (asArr v).bind (fun xs =>
                  if xs.all historyElemOk then some xs else none)) with
          | none => none
          | some hist =>
            match getField fs "snapshot" with
            | some snap =>
              if snapshotOk snap then
                some ⟨goal, allow.getD [], step.getD 0, snap, hist.getD []⟩
              else none
            | none => none
  | _ => none

/-- `normalizeDomain`: trim, lowercase, strip one leading `*.`. -/
def normalizeDomain (d : String) : String :=
  let t := lowerStr (jsTrim d)
  if t.data.take 2 = ['*', '.'] then ⟨t.data.drop 2⟩ else t

/-- `safeDomain` lowercases `new URL(url).hostname` (the extractor itself is
the abstract `hostOf`, `""` when the URL does not parse). -/
def safeDomain (hostOf : String → String) (url : String) : String :=
  lowerStr (hostOf url)

/-- `isAllowedByAllowlist` of `agent-step.ts`. -/
def isAllowedByAllowlist (hostOf : String → String) (url : String)
    (allowlistDomains : List String) : Bool :=
  if allowlistDomains.isEmpty then true
  else
    let host := normalizeDomain (safeDomain hostOf url)
    if host = "" then false
    else (allowlistDomains.map normalizeDomain).any (fun d =>
      host = d || jsEndsWith host ("." ++ d) || jsIncludes host d)

/-- `isRestrictedUrl`. -/
def isRestrictedUrl (url : String) : Bool :=
  let u := lowerStr url
  jsStartsWith u "chrome://" || jsStartsWith u "chrome-extension://" ||
    jsStartsWith u "edge://" || jsStartsWith u "about:" || jsStartsWith u "file://"

/-- `{ done: false, action: { type: "open_tab", data: { url } } }`. -/
def mkOpenTab (url : String) : Json :=
  .obj [("done", .bool false),
        ("action", .obj [("type", .str "open_tab"),
                         ("data", .obj [("url", .str url)])])]

/-- The deterministic planner fallback inside `callLocalModel`
(`agent-step.ts` lines 200–237). -/
def fallbackPlanner (goalParam : String) : Json :=
  let goal := jsTrim goalParam
  let lower := lowerStr goal
  match Rx.jsMatch Rx.searchRe lower with
  | some caps =>
    let q := encodeURIComponent (jsTrim ((Rx.capGet caps 1).getD ""))
    mkOpenTab ("https://www.google.com/search?q=" ++ q)
  | none =>
  match Rx.jsMatch Rx.priceRe lower with
  | some caps =>
    let item := encodeURIComponent (jsTrim ((Rx.capGet caps 1).getD ""))
    let price := stripCommas ((Rx.capGet caps 2).getD "")
    let q := encodeURIComponent (item ++ " under " ++ price ++ " rupees")
    mkOpenTab ("https://www.google.com/search?q=" ++ q)
  | none =>
  match Rx.jsMatch Rx.openRe lower with
  | some caps =>
    let host := (Rx.capGet caps 2).getD ""
    let path := (Rx.capGet caps 3).getD ""
    mkOpenTab ("https://" ++ host ++ path)
  | none =>
    .obj [("done", .bool true),
          ("action", .obj [("type", .str "finish"),
                           ("data", .obj [("reason", .str "deterministic-fallback: no actionable plan"),
                                          ("goal", .str goal)])])]

/-- Outcome of awaiting `generateStep` of the on-device adapter (or of the
dynamic import of the adapter module). -/
inductive LocalOutcome where
  | throws
  | returns (v : Json)

/-- `callLocalModel`: the adapter is tried inside try/catch; a thrown
exception or a falsy result falls through to the deterministic planner, so
the function itself never throws.  The second component records whether the
deterministic planner produced the result. -/
def callLocalModel (o : LocalOutcome) (goal : String) : Json × Bool :=
  match o with
  | .throws => (fallbackPlanner goal, true)
  | .returns v => if jsTruthy v then (v, false) else (fallbackPlanner goal, true)

/-- One HTTP response of the handler (the fields of the JSON bodies it
sends; absent fields are `none`). -/
structure StepResponse where
  status : Nat
  ok : Bool
  done : Bool
  action : Option JsAction
  reason : Option String
  debug : Option String
deriving DecidableEq

/-- Backend stages the handler actually runs, in order. -/
inductive Stage where
  | localModel
  | remoteModel
  | deterministic
deriving DecidableEq

/-- `/(gemini|gpt|openai|anthropic|claude|replicate|poe|perplexity|bard)/i.test(model)`. -/
def prefersRemote (model : String) : Bool :=
  ["gemini", "gpt", "openai", "anthropic", "claude", "replicate", "poe",
   "perplexity", "bard"].any (fun w => jsIncludes (lowerStr model) w)

/-- The `url` the safety checks read from a parsed action. -/
def actionUrl : JsAction → Option String
  | .open_tab url => some url
  | .navigate url _ => some url
  | _ => none

/-- The truncated debug excerpt built on schema failure (string → slice,
object → `JSON.stringify` then slice, otherwise `String(raw)` then slice). -/
def debugShort (raw : Json) : String :=
  match raw with
  | .str s => jsSlice s 500
  | .obj fs => jsSlice (jsonStringify (.obj fs)) 500
  | .arr xs => jsSlice (jsonStringify (.arr xs)) 500
  | v => jsSlice (jsToString v) 500

/-- The 200 response sent when `ModelStepSchema.safeParse` fails. -/
def invalidShapeResponse (raw : Json) : StepResponse :=
  { status := 200, ok := false, done := true, action := none,
    reason := some "Gemini returned invalid response shape",
    debug := some (debugShort raw) }

/-- Lines 302–318 of the handler: the finish shortcut, then the
restricted-URL and allowlist checks on `navigate`/`open_tab`, then the
success response. -/
def respondParsed (hostOf : String → String) (allowlistDomains : List String)
    (out : ModelStep) : StepResponse :=
  let okResponse : StepResponse :=
    { status := 200, ok := true, done := out.done, action := out.action,
      reason := out.reason, debug := none }
  match out.action with
  | some (.finish r) =>
    { status := 200, ok := true, done := true, action := none,
      reason := jsOr r out.reason, debug := none }
  | some a =>
    match actionUrl a with
    | some url =>
      if isRestrictedUrl url then
        { status := 200, ok := false, done := true, action := none,
          reason := some ("Blocked restricted URL: " ++ url), debug := none }
      else if !isAllowedByAllowlist hostOf url allowlistDomains then
        { status := 200, ok := false, done := true, action := none,
          reason := some ("Blocked by allowlist: " ++ url), debug := none }
      else okResponse
    | none => okResponse
  | none => okResponse

/-- Parse the raw backend output and respond (lines 286–318). -/
def finishWith (hostOf : String → String) (allowlistDomains : List String)
    (raw : Json) : StepResponse :=
  match parseModelStep raw with
  | none => invalidShapeResponse raw
  | some out => respondParsed hostOf allowlistDomains out

/-- The 500 response of the outer catch (`e?.message || "Agent step failed"`). -/
def err500 (msg : String) : StepResponse :=
  { status := 500, ok := false, done := true, action := none,
    reason := some (jsOrStr msg "Agent step failed"), debug := none }

/-- Lines 246–321 of `handleAgentStep` after request parsing: the local
attempt, the (dead) remote fallback branch, schema validation and safety
checks.  Returns the response and the list of backend stages run. -/
def handleCore (hostOf : String → String) (model : String) (apiKey : Option String)
    (localResult : Except String (Json × Bool)) (remoteResult : Except String Json)
    (req : StepRequest) : StepResponse × List Stage :=
  match localResult with
  | .ok (raw, usedPlanner) =>
    (finishWith hostOf req.allowlistDomains raw,
     .localModel :: (if usedPlanner then [Stage.deterministic] else []))
  | .error localErr =>
    if prefersRemote model then
      match apiKey with
      | none =>
        ({ status := 500, ok := false, done := true, action := none,
           reason := some "Missing GEMINI_API_KEY on server for remote model fallback",
           debug := none }, [.localModel])
      | some _ =>
        match remoteResult with
        | .ok raw => (finishWith hostOf req.allowlistDomains raw, [.localModel, .remoteModel])
        | .error e => (err500 e, [.localModel, .remoteModel])
    else
      (err500 localErr, [.localModel])

/-- `handleAgentStep`: parse the request (400 on failure), then run the
resolution chain; `callLocalModel` never throws, so `handleCore` is always
entered with an `ok` local result. -/
def handleAgentStep (hostOf : String → String) (model : String) (apiKey : Option String)
    (o : LocalOutcome) (remoteResult : Except String Json) (body : Json) :
    StepResponse × List Stage :=
  match parseStepRequest body with
  | none =>
    ({ status := 400, ok := false, done := true, action := none,
       reason := some "Invalid request", debug := none }, [])
  | some req =>
    handleCore hostOf model apiKey (.ok (callLocalModel o req.goal)) remoteResult req

end AgentStepRoute

/-! ## `src/server/local-model.ts` -/

namespace LocalModel

/-- `makeGoogleSearch` (always called without a site hint in the planner). -/
def makeGoogleSearch (q : String) : String :=
  "https://www.google.com/search?q=" ++ encodeURIComponent q

/-- `makeAmazonSearch`. -/
def makeAmazonSearch (q : String) : String :=
  "https://www.amazon.in/s?k=" ++ encodeURIComponent q

/-- `{ done: false, action: { type: "click", data: { selector } } }`. -/
def mkClick (selector : String) : Json :=
  .obj [("done", .bool false),
        ("action", .obj [("type", .str "click"),
                         ("data", .obj [("selector", .str selector)])])]

/-- `{ done: false, action: { type: "extract", data: { mode } } }`. -/
def mkExtract (mode : String) : Json :=
  .obj [("done", .bool false),
        ("action", .obj [("type", .str "extract"),
                         ("data", .obj [("mode", .str mode)])])]

/-- `{ done: true, action: { type: "finish", data: { reason } } }`. -/
def mkFinish (reason : String) : Json :=
  .obj [("done", .bool true),
        ("action", .obj [("type", .str "finish"),
                         ("data", .obj [("reason", .str reason)])])]

/-- `{ done: true, action: { type: "finish", data: { reason, url } } }`. -/
def mkFinishUrl (reason url : String) : Json :=
  .obj [("done", .bool true),
        ("action", .obj [("type", .str "finish"),
                         ("data", .obj [("reason", .str reason), ("url", .str url)])])]

/-- `deterministicPlanner` of `local-model.ts` (lines 32–132).  The
`try`/`catch` around the final fallback cannot fire in the model (its body
is total), so only the `try` branch is embedded. -/
def deterministicPlanner (goalParam : String) (step : Int) : Json :=
  let goalRaw := jsTrim goalParam
  let goal := lowerStr goalRaw
  let stepNum := step
  match Rx.jsMatch Rx.urlRegex goalRaw with
  | some caps =>
    let u0 := (Rx.capGet caps 0).getD ""
    let url := if Rx.jsTest Rx.httpSchemeRe u0 then u0 else "https://" ++ u0
    if stepNum = 0 then AgentStepRoute.mkOpenTab url
    else if stepNum = 1 then mkClick "a[href]:not([role])"
    else mkFinishUrl "completed deterministic navigation" url
  | none =>
  match Rx.jsMatch Rx.searchRe goal, Rx.jsMatch Rx.amazonRe goal with
  | some sc, some _ =>
    let query := jsTrim ((Rx.capGet sc 1).getD "")
    if stepNum = 0 then AgentStepRoute.mkOpenTab (makeAmazonSearch query)
    else if stepNum = 1 then mkClick "div[data-component-type=\"s-search-result\"] h2 a"
    else if stepNum = 2 then mkExtract "text"
    else mkFinish "amazon deterministic flow complete"
  | _, _ =>
  match Rx.jsMatch Rx.priceRe goal with
  | some pc =>
    let item := jsTrim ((Rx.capGet pc 1).getD "")
    let price := stripCommas ((Rx.capGet pc 2).getD "")
    let full := item ++ " under " ++ price ++ " rupees"
    if stepNum = 0 then AgentStepRoute.mkOpenTab (makeGoogleSearch full)
    else if stepNum = 1 then
      mkClick "div[data-attrid], div[data-component-type=\"s-search-result\"] h2 a, a"
    else mkFinish "search flow complete"
  | none =>
    let goalText := jsTrim goalParam
    let siteHint :=
      match Rx.jsMatch Rx.siteRe goalText with
      | some caps =>
        let s := lowerStr ((Rx.capGet caps 1).getD "")
        if Rx.jsTest Rx.amazonStartRe s || Rx.jsTest Rx.amazonAnywhereRe goalText then
          " site:amazon.in OR site:amazon.com"
        else " site:" ++ s
      | none => ""
    AgentStepRoute.mkOpenTab
      ("https://www.google.com/search?q=" ++ encodeURIComponent (goalText ++ siteHint))

/-- `ensureGenerationPipeline` (lines 16–30).  The cached pipeline is
identified by the model name it was constructed from; `loadOk` is the
oracle for whether `pipeline("text-generation", m, ...)` resolves.
Returns the new cache and the result (`Except.error` = the load rejected). -/
def ensureGenerationPipeline (loadOk : String → Bool) (cache : Option String)
    (modelName : String) : Option String × Except Unit String :=
  match cache with
  | some p => (some p, .ok p)
  | none =>
    if loadOk modelName then (some modelName, .ok modelName)
    else (none, .error ())

/-- The cache after a sequence of `ensureGenerationPipeline` calls. -/
def pipelineAfter (loadOk : String → Bool) : Option String → List String → Option String
  | cache, [] => cache
  | cache, m :: ms => pipelineAfter loadOk (ensureGenerationPipeline loadOk cache m).1 ms

end LocalModel

/-! ## The `AutonomousBrowsingAgent` run loop -/

namespace AgentLoop

inductive AgentRunState where
  | idle
  | planning
  | acting
  | observing
  | stopped
  | completed
  | error
deriving DecidableEq

structure AgentBudgets where
  maxDepth : Nat
  maxActions : Nat
  navigationBudget : Nat
  clickBudget : Nat
deriving DecidableEq

/-- The agent settings the loop consults (timeouts and log limits are
consumed by collaborators only). -/
structure AgentSettings where
  enabled : Bool
  dryRun : Bool
  allowlistDomains : List String
  budgets : AgentBudgets
deriving DecidableEq

structure AgentPageLink where
  href : String
  text : String
deriving DecidableEq

structure AgentDomSnapshot where
  url : String
  title : String
  metaDescription : Option String
  mainText : String
  links : Option (List AgentPageLink)
deriving DecidableEq

/-- `AgentRunStatus` (timestamps omitted: no claim consults them; the
numeric counters are read through `x || 0`, so they are `Nat`s here). -/
structure AgentRunStatus where
  runId : Option String
  state : AgentRunState
  goal : Option String
  tabId : Option Int
  depth : Nat
  actionsTaken : Nat
  navigations : Nat
  clicks : Nat
  lastError : Option String
deriving DecidableEq

/-- The mutable fields of `AutonomousBrowsingAgent`. -/
structure AgentState where
  status : AgentRunStatus
  stopRequested : Bool
  visited : List String
  lastSnapshot : Option AgentDomSnapshot
  goalTerms : List String
deriving DecidableEq

/-- `safeDomain` of the agent file does not lowercase the hostname; it is
the abstract extractor directly. -/
def isAllowedByAllowlist (hostOf : String → String) (url : String)
    (allowlistDomains : List String) : Bool :=
  if allowlistDomains.isEmpty then true
  else
    let host := AgentStepRoute.normalizeDomain (hostOf url)
    if host = "" then false
    else (allowlistDomains.map AgentStepRoute.normalizeDomain).any (fun d =>
      host = d || jsEndsWith host ("." ++ d) || jsIncludes host d)

/-- `tokenizeGoal`: lowercase, split on `[^a-z0-9]+`, keep terms of length
at least 3, cap at 20. -/
def tokenizeGoal (goal : String) : List String :=
  (((lowerStr goal).split (fun c =>
      !(('a' ≤ c && c ≤ 'z') || ('0' ≤ c && c ≤ '9')))).filter
    (fun t => t.length ≥ 3)).take 20

/-- Number of goal terms found in the snapshot haystack (`scoreSnapshot`
is this count divided by the term count). -/
def scoreSnapshotHits (goalTerms : List String) (snap : AgentDomSnapshot) : Nat :=
  let hay := lowerStr (snap.title ++ " " ++ (snap.metaDescription.getD "") ++ " " ++ snap.mainText)
  goalTerms.countP (fun t => jsIncludes hay t)

/-- `scoreSnapshot(goalTerms, snap) >= 0.85`, in exact arithmetic
(`hit / n ≥ 0.85  ↔  20 * hit ≥ 17 * n`; zero terms score 0). -/
def relevanceHigh (goalTerms : List String) (snap : AgentDomSnapshot) : Bool :=
  goalTerms.length ≠ 0 ∧ 20 * scoreSnapshotHits goalTerms snap ≥ 17 * goalTerms.length

/-- `scoreLink`, scaled by 4 so the `+0.25` anchor-text bonus stays
integral: `4 * score`. -/
def scoreLink4 (goalTerms : List String) (text href : String) : Nat :=
  let hay := lowerStr (text ++ " " ++ href)
  4 * goalTerms.countP (fun t => jsIncludes hay t) + (if jsTrim text = "" then 0 else 1)

/-- Stable insertion preserving original order on ties, descending by key:
the head of the sorted list is what `candidates.sort((a, b) => b.s - a.s)[0]`
yields under the (stable) ECMAScript sort. -/
def insertDesc (key : α → Nat) (x : α) : List α → List α
  | [] => [x]
  | y :: ys => if key y ≤ key x then x :: y :: ys else y :: insertDesc key x ys

/-- Stable descending sort by key. -/
def sortDesc (key : α → Nat) (l : List α) : List α := l.foldr (insertDesc key) []

/-- The actions `planNextAction` can produce. -/
inductive PlannedAction where
  | extract_dom (tabId : Int)
  | navigate (tabId : Int) (url : String) (anchorText : String)
deriving DecidableEq

/-- The candidate filter of `planNextAction`: non-empty href, href not
containing `#`, unvisited, allowed by the allowlist. -/
def candidateLinks (hostOf : String → String) (settings : AgentSettings)
    (visited : List String) (links : List AgentPageLink) : List AgentPageLink :=
  ((((links.filter (fun l => l.href ≠ "")).filter
      (fun l => !jsIncludes l.href "#")).filter
      (fun l => !visited.contains l.href)).filter
      (fun l => isAllowedByAllowlist hostOf l.href settings.allowlistDomains))

/-- `planNextAction` (lines 243–278). -/
def planNextAction (hostOf : String → String) (settings : AgentSettings)
    (st : AgentState) : Option PlannedAction :=
  match st.status.tabId with
  | none => none
  | some tabId =>
    match st.lastSnapshot with
    | none => some (.extract_dom tabId)
    | some snap =>
      let links := snap.links.getD []
      let candidates := candidateLinks hostOf settings st.visited links
      if candidates.isEmpty then none
      else
        let ranked := sortDesc (fun l => scoreLink4 st.goalTerms l.text l.href) candidates
        match ranked.head? with
        | some best => some (.navigate tabId best.href best.text)
        | none => none

/-- `Set.add` on the visited list. -/
def addVisited (visited : List String) (url : String) : List String :=
  if visited.contains url then visited else visited ++ [url]

/-- The act phase of one loop iteration (lines 318–337): the per-action
effects, then `actionsTaken++`.  The boolean records whether
`browserController.navigate` was actually invoked (it is skipped when the
allowlist blocks the URL or dry-run is on, while the counters and the
visited set are updated regardless). -/
def actPhase (hostOf : String → String) (settings : AgentSettings)
    (action : PlannedAction) (st : AgentState) : Except String (AgentState × Bool) :=
  let bump := fun (st' : AgentState) (navCalled : Bool) =>
    Except.ok ({ st' with status := { st'.status with actionsTaken := st'.status.actionsTaken + 1 } }, navCalled)
  match action with
  | .navigate _ url _ =>
    if url = "" then .error "Navigate action missing url"
    else
      let blocked := !isAllowedByAllowlist hostOf url settings.allowlistDomains
      let navCalled := !blocked && !settings.dryRun
      bump { st with
              status := { st.status with
                           navigations := st.status.navigations + 1,
                           depth := st.status.depth + 1 },
              visited := addVisited st.visited url } navCalled
  | .extract_dom _ => bump st false

/-- `budgetsExceeded`. -/
def budgetsExceeded (settings : AgentSettings) (st : AgentState) : Option String :=
  if st.status.depth ≥ settings.budgets.maxDepth then some "maxDepth reached"
  else if st.status.actionsTaken ≥ settings.budgets.maxActions then some "maxActions reached"
  else if st.status.navigations ≥ settings.budgets.navigationBudget then
    some "navigationBudget reached"
  else if st.status.clicks ≥ settings.budgets.clickBudget then some "clickBudget reached"
  else none

/-- `transition(state)`. -/
def setState (st : AgentState) (s : AgentRunState) : AgentState :=
  { st with status := { st.status with state := s } }

inductive IterOutcome where
  | completedRun (st : AgentState)
  | continueRun (st : AgentState)
  | errorRun (st : AgentState)
deriving DecidableEq

/-- One iteration of the `while` body of `loop` (lines 299–363): budget
check, plan, act, observe (`snapOracle` is what
`browserController.extractDomSnapshot` returns), relevance scoring.  An
exception inside the body is caught by the `.catch` installed in `start`,
which runs `fail`: `error` state with `lastError`. -/
def loopIter (hostOf : String → String) (settings : AgentSettings)
    (snapOracle : AgentDomSnapshot) (st : AgentState) : IterOutcome :=
  match budgetsExceeded settings st with
  | some _ => .completedRun (setState st .completed)
  | none =>
    let st1 := setState st .planning
    match planNextAction hostOf settings st1 with
    | none => .completedRun (setState st1 .completed)
    | some action =>
      let st2 := setState st1 .acting
      match actPhase hostOf settings action st2 with
      | .error msg =>
        .errorRun (setState { st2 with status := { st2.status with lastError := some msg } } .error)
      | .ok (st3, _) =>
        let st4 := { setState st3 .observing with lastSnapshot := some snapOracle }
        if relevanceHigh st4.goalTerms snapOracle then
          .completedRun (setState st4 .completed)
        else .continueRun st4

/-- The errors `start` can throw before launching the loop. -/
inductive StartErr where
  | disabled
  | alreadyRunning
deriving DecidableEq

/-- `start(goal, startUrl?, tabId?)` up to launching the loop (lines
93–131): the disabled check, the run-state check, then the state reset and
the new `RunStatus`.  `resolvedTabId` is what
`browserController.ensureTabId` returns, `newRunId` the generated id.  On a
thrown error the agent object is returned unchanged. -/
def start (settings : AgentSettings) (goal : String) (resolvedTabId : Int)
    (newRunId : String) (a : AgentState) : AgentState × Except StartErr AgentRunStatus :=
  if !settings.enabled then (a, .error .disabled)
  else if a.status.state ≠ .idle ∧ a.status.state ≠ .stopped ∧
          a.status.state ≠ .completed ∧ a.status.state ≠ .error then
    (a, .error .alreadyRunning)
  else
    let status : AgentRunStatus :=
      { runId := some newRunId, state := .planning, goal := some goal,
        tabId := some resolvedTabId, depth := 0, actionsTaken := 0,
        navigations := 0, clicks := 0, lastError := none }
    ({ status := status, stopRequested := false, visited := [],
       lastSnapshot := none, goalTerms := tokenizeGoal goal }, .ok status)

end AgentLoop

/-! ## Claim-level predicates and concrete fixtures -/

/-- The step-result shape claim C1 asserts for every response: either a
structurally valid action, or a terminal `done = true` result carrying a
reason string. -/
def GoodResult (r : AgentStepRoute.StepResponse) : Prop :=
  (∃ a, r.action = some a) ∨ (r.done = true ∧ r.reason.isSome = true)

/-- The link filter exactly as claim C8 words it (for comparison with the
code's `candidateLinks`): keep a link iff its href is non-empty, not
fragment-only (not starting with `#`), not already visited, and not blocked
by the allowlist. -/
def specKeepsLink (hostOf : String → String) (settings : AgentLoop.AgentSettings)
    (visited : List String) (l : AgentLoop.AgentPageLink) : Bool :=
  l.href ≠ "" && !jsStartsWith l.href "#" && !visited.contains l.href &&
    AgentLoop.isAllowedByAllowlist hostOf l.href settings.allowlistDomains

/-- A minimal valid request body (`goal` plus an empty snapshot object). -/
def body0 : Json := .obj [("goal", .str "hello"), ("snapshot", .obj [])]

/-- A hostname extractor fixture. -/
def hostOf0 : String → String := fun _ => "a.com"

/-- Agent settings fixture: enabled, not dry-run, empty allowlist. -/
def settings0 : AgentLoop.AgentSettings :=
  { enabled := true, dryRun := false, allowlistDomains := [],
    budgets := { maxDepth := 5, maxActions := 10, navigationBudget := 5, clickBudget := 5 } }

/-- A snapshot whose only link has a fragment inside its href (not
fragment-only) and goal-relevant anchor text. -/
def snap0 : AgentLoop.AgentDomSnapshot :=
  { url := "https://a.com", title := "t", metaDescription := none, mainText := "m",
    links := some [{ href := "https://a.com/p#s", text := "wireless" }] }

/-- A running agent state holding `snap0` as the last snapshot. -/
def st0 : AgentLoop.AgentState :=
  { status := { runId := some "run_1", state := .planning, goal := some "wireless",
                tabId := some 1, depth := 0, actionsTaken := 0, navigations := 0,
                clicks := 0, lastError := none },
    stopRequested := false, visited := [], lastSnapshot := some snap0,
    goalTerms := ["wireless"] }

/-- A snapshot with two clean candidate links (no fragments). -/
def snap1 : AgentLoop.AgentDomSnapshot :=
  { url := "https://a.com", title := "t", metaDescription := none, mainText := "m",
    links := some [{ href := "https://a.com/p", text := "wireless" },
                   { href := "https://a.com/q", text := "" }] }

/-- A running agent state holding `snap1` as the last snapshot. -/
def st1 : AgentLoop.AgentState := { st0 with lastSnapshot := some snap1 }

/-! ## Helper lemmas -/

theorem toNat_ofNat_valid (n : Nat) (h : n.isValidChar) : (Char.ofNat n).toNat = n := by
  simp only [Char.ofNat, h, dif_pos, Char.ofNatAux, Char.toNat, UInt32.toNat]
  simp

theorem charToLower_idem (c : Char) : c.toLower.toLower = c.toLower := by
  unfold Char.toLower
  by_cases h : c.toNat ≥ 65 ∧ c.toNat ≤ 90
  · simp only [h, and_self, if_true, if_pos]
    have hv : (c.toNat + 32).isValidChar := by left; omega
    rw [if_neg]
    rw [toNat_ofNat_valid _ hv]
    omega
  · simp [h]

theorem lowerStr_data (s : String) : (lowerStr s).data = s.data.map Char.toLower := rfl

theorem lowerStr_fixes (s : String) : ∀ c ∈ (lowerStr s).data, c.toLower = c := by
  intro c hc
  rw [lowerStr_data] at hc
  obtain ⟨a, _, rfl⟩ := List.mem_map.mp hc
  exact charToLower_idem a

theorem string_data_append (a b : String) : (a ++ b).data = a.data ++ b.data := by
  cases a; cases b; rfl

theorem string_mk_data (s : String) : (⟨s.data⟩ : String) = s := rfl

theorem string_eq_empty_of_data (a : String) (h : a.data = []) : a = "" := by
  cases a with
  | mk d => cases h; rfl

theorem string_append_ne_empty_left (a b : String) (h : a ≠ "") : a ++ b ≠ "" := by
  intro hab
  apply h
  apply string_eq_empty_of_data
  have hd : a.data ++ b.data = [] := by rw [← string_data_append, hab]
  exact (List.append_eq_nil.mp hd).1

theorem jsIncludes_true_iff (s sub : String) :
    jsIncludes s sub = true ↔ sub.data <:+: s.data := by
  simp [jsIncludes]

theorem jsEndsWith_true_iff (s suf : String) :
    jsEndsWith s suf = true ↔ suf.data <:+ s.data := by
  simp [jsEndsWith]

theorem jsTrim_infix (s : String) : (jsTrim s).data <:+: s.data := by
  have h1 : s.data.dropWhile Char.isWhitespace <:+ s.data := List.dropWhile_suffix _
  have h2 : ((s.data.dropWhile Char.isWhitespace).reverse.dropWhile Char.isWhitespace).reverse <+:
      s.data.dropWhile Char.isWhitespace := by
    rw [← List.reverse_suffix]
    simpa using List.dropWhile_suffix (l := (s.data.dropWhile Char.isWhitespace).reverse)
      Char.isWhitespace
  exact h2.isInfix.trans h1.isInfix

theorem normalizeDomain_infix_of_lowered (s : String) (h : ∀ c ∈ s.data, c.toLower = c) :
    (AgentStepRoute.normalizeDomain s).data <:+: s.data := by
  have htr : (jsTrim s).data <:+: s.data := jsTrim_infix s
  have hlow : lowerStr (jsTrim s) = jsTrim s := by
    have : (jsTrim s).data.map Char.toLower = (jsTrim s).data := by
      have hmem : ∀ c ∈ (jsTrim s).data, Char.toLower c = c := by
        intro c hc
        exact h c (htr.subset hc)
      calc (jsTrim s).data.map Char.toLower = (jsTrim s).data.map id :=
            List.map_congr_left hmem
        _ = (jsTrim s).data := List.map_id _
    calc lowerStr (jsTrim s) = ⟨(jsTrim s).data.map Char.toLower⟩ := rfl
      _ = ⟨(jsTrim s).data⟩ := by rw [this]
      _ = jsTrim s := rfl
  unfold AgentStepRoute.normalizeDomain
  rw [hlow]
  by_cases hst : (jsTrim s).data.take 2 = ['*', '.']
  · rw [if_pos hst]
    exact (List.drop_suffix 2 (jsTrim s).data).isInfix.trans htr
  · rw [if_neg hst]
    exact htr

theorem match_imp_infix {host d : String}
    (h : host = d ∨ jsEndsWith host ("." ++ d) = true ∨ jsIncludes host d = true) :
    d.data <:+: host.data := by
  rcases h with rfl | he | hi
  · exact List.infix_refl _
  · have h1 : ("." ++ d).data <:+ host.data := (jsEndsWith_true_iff _ _).mp he
    have h2 : d.data <:+ ("." ++ d).data := by
      rw [string_data_append]
      exact List.suffix_append _ _
    exact (h2.trans h1).isInfix
  · exact (jsIncludes_true_iff _ _).mp hi

namespace AgentStepRoute

theorem allowlist_blocks (hostOf : String → String) (url : String) (allow : List String)
    (hne : allow ≠ [])
    (hnm : ∀ dm ∈ allow,
      safeDomain hostOf url ≠ normalizeDomain dm ∧
      jsEndsWith (safeDomain hostOf url) ("." ++ normalizeDomain dm) = false ∧
      jsIncludes (safeDomain hostOf url) (normalizeDomain dm) = false) :
    isAllowedByAllowlist hostOf url allow = false := by
  unfold isAllowedByAllowlist
  rw [if_neg (by simp [List.isEmpty_iff, hne])]
  by_cases hhost : normalizeDomain (safeDomain hostOf url) = ""
  · rw [if_pos hhost]
  · rw [if_neg hhost]
    rw [← Bool.not_eq_true, List.any_eq_true]
    rintro ⟨d', hd', hp⟩
    obtain ⟨dm, hdm, rfl⟩ := List.mem_map.mp hd'
    have hdisj : normalizeDomain (safeDomain hostOf url) = normalizeDomain dm ∨
        jsEndsWith (normalizeDomain (safeDomain hostOf url)) ("." ++ normalizeDomain dm) = true ∨
        jsIncludes (normalizeDomain (safeDomain hostOf url)) (normalizeDomain dm) = true := by
      simpa [Bool.or_eq_true, decide_eq_true_eq, or_assoc] using hp
    have hinf : (normalizeDomain dm).data <:+: (normalizeDomain (safeDomain hostOf url)).data :=
      match_imp_infix hdisj
    have hinf2 : (normalizeDomain (safeDomain hostOf url)).data <:+: (safeDomain hostOf url).data :=
      normalizeDomain_infix_of_lowered _ (lowerStr_fixes _)
    have : jsIncludes (safeDomain hostOf url) (normalizeDomain dm) = true :=
      (jsIncludes_true_iff _ _).mpr (hinf.trans hinf2)
    have hfalse := (hnm dm hdm).2.2
    rw [this] at hfalse
    exact absurd hfalse (by decide)

end AgentStepRoute

/-- C2: every `navigate` or `open_tab` action whose url starts
(case-insensitively) with one of the restricted schemes `chrome://`,
`chrome-extension://`, `edge://`, `about:` or `file://` is blocked by the
validator with `done = true` and a block reason, for every allowlist
(including the empty one). -/
theorem c2_restricted_always_blocked
    (hostOf : String → String) (allow : List String) (out : AgentStepRoute.ModelStep)
    (url : String)
    (ha : out.action = some (.open_tab url) ∨
          ∃ tid, out.action = some (.navigate url tid))
    (hr : jsStartsWith (lowerStr url) "chrome://" = true ∨
          jsStartsWith (lowerStr url) "chrome-extension://" = true ∨
          jsStartsWith (lowerStr url) "edge://" = true ∨
          jsStartsWith (lowerStr url) "about:" = true ∨
          jsStartsWith (lowerStr url) "file://" = true) :
    AgentStepRoute.respondParsed hostOf allow out =
      { status := 200, ok := false, done := true, action := none,
        reason := some ("Blocked restricted URL: " ++ url), debug := none } := by
  have hru : AgentStepRoute.isRestrictedUrl url = true := by
    unfold AgentStepRoute.isRestrictedUrl
    rcases hr with h | h | h | h | h <;> simp [h]
  rcases ha with h | ⟨tid, h⟩ <;>
    simp [AgentStepRoute.respondParsed, h, AgentStepRoute.actionUrl, hru]

/-- C2 witness: a `chrome://` open_tab is blocked under the empty allowlist. -/
theorem c2_restricted_always_blocked_witness :
    AgentStepRoute.respondParsed (fun _ => "") []
      ⟨false, some (.open_tab "chrome://settings"), none⟩ =
      { status := 200, ok := false, done := true, action := none,
        reason := some ("Blocked restricted URL: " ++ "chrome://settings"), debug := none } :=
  c2_restricted_always_blocked (fun _ => "") []
    ⟨false, some (.open_tab "chrome://settings"), none⟩ "chrome://settings"
    (Or.inl rfl) (Or.inl (by decide))

/-- C3: with a non-empty allowlist, a `navigate`/`open_tab` action whose
target hostname (lowercased) neither equals, nor is a dot-separated
subdomain of, nor contains as a substring any allowlisted domain (each
normalized: lowercased, leading `*.` stripped) is blocked with
`done = true`; with the empty allowlist no allowlist block occurs (the
response is the plain success response whenever the url is not
restricted). -/
theorem c3_allowlist_enforcement :
    (∀ (hostOf : String → String) (allow : List String)
        (out : AgentStepRoute.ModelStep) (url : String),
      allow ≠ [] →
      (out.action = some (.open_tab url) ∨
        ∃ tid, out.action = some (.navigate url tid)) →
      (∀ dm ∈ allow,
        AgentStepRoute.safeDomain hostOf url ≠ AgentStepRoute.normalizeDomain dm ∧
        jsEndsWith (AgentStepRoute.safeDomain hostOf url)
          ("." ++ AgentStepRoute.normalizeDomain dm) = false ∧
        jsIncludes (AgentStepRoute.safeDomain hostOf url)
          (AgentStepRoute.normalizeDomain dm) = false) →
      (AgentStepRoute.respondParsed hostOf allow out).done = true ∧
        (AgentStepRoute.respondParsed hostOf allow out).ok = false) ∧
    (∀ (hostOf : String → String) (out : AgentStepRoute.ModelStep) (url : String),
      (out.action = some (.open_tab url) ∨
        ∃ tid, out.action = some (.navigate url tid)) →
      AgentStepRoute.isRestrictedUrl url = false →
      AgentStepRoute.respondParsed hostOf [] out =
        { status := 200, ok := true, done := out.done, action := out.action,
          reason := out.reason, debug := none }) := by
  constructor
  · intro hostOf allow out url hne ha hnm
    have hblocked : AgentStepRoute.isAllowedByAllowlist hostOf url allow = false :=
      AgentStepRoute.allowlist_blocks hostOf url allow hne hnm
    rcases ha with h | ⟨tid, h⟩ <;>
      by_cases hru : AgentStepRoute.isRestrictedUrl url <;>
        simp [AgentStepRoute.respondParsed, h, AgentStepRoute.actionUrl, hru, hblocked]
  · intro hostOf out url ha hru
    have hallow : AgentStepRoute.isAllowedByAllowlist hostOf url [] = true := rfl
    rcases ha with h | ⟨tid, h⟩ <;>
      simp [AgentStepRoute.respondParsed, h, AgentStepRoute.actionUrl, hru, hallow]

/-- C3 witness: blocking at a concrete non-matching host, and the absence
of an allowlist block under the empty allowlist, at concrete inputs. -/
theorem c3_allowlist_enforcement_witness :
    ((AgentStepRoute.respondParsed (fun _ => "evil.example") ["google.com"]
        ⟨false, some (.navigate "https://evil.example/x" none), none⟩).done = true ∧
      (AgentStepRoute.respondParsed (fun _ => "evil.example") ["google.com"]
        ⟨false, some (.navigate "https://evil.example/x" none), none⟩).ok = false) ∧
    AgentStepRoute.respondParsed (fun _ => "evil.example") []
        ⟨false, some (.open_tab "https://evil.example/x"), none⟩ =
      { status := 200, ok := true, done := false,
        action := some (.open_tab "https://evil.example/x"), reason := none,
        debug := none } :=
  ⟨c3_allowlist_enforcement.1 (fun _ => "evil.example") ["google.com"]
      ⟨false, some (.navigate "https://evil.example/x" none), none⟩ "https://evil.example/x"
      (by decide) (Or.inr ⟨none, rfl⟩) (by decide),
    c3_allowlist_enforcement.2 (fun _ => "evil.example")
      ⟨false, some (.open_tab "https://evil.example/x"), none⟩ "https://evil.example/x"
      (Or.inl rfl) (by decide)⟩

/-- C9: calling `start` on an enabled agent whose run state is neither idle
nor terminal fails with the run-state error and leaves the whole agent
object (in particular the active run's status) unchanged; calling it with
the agent feature disabled fails with the distinct configuration error,
again leaving the state unchanged. -/
theorem c9_start_guards :
    (∀ (settings : AgentLoop.AgentSettings) (goal : String) (tabId : Int)
        (runId : String) (a : AgentLoop.AgentState),
      settings.enabled = true →
      a.status.state ≠ .idle → a.status.state ≠ .stopped →
      a.status.state ≠ .completed → a.status.state ≠ .error →
      AgentLoop.start settings goal tabId runId a = (a, .error .alreadyRunning)) ∧
    (∀ (settings : AgentLoop.AgentSettings) (goal : String) (tabId : Int)
        (runId : String) (a : AgentLoop.AgentState),
      settings.enabled = false →
      AgentLoop.start settings goal tabId runId a = (a, .error .disabled)) := by
  constructor
  · intro settings goal tabId runId a hen h1 h2 h3 h4
    unfold AgentLoop.start
    rw [if_neg (by simp [hen])]
    rw [if_pos ⟨h1, h2, h3, h4⟩]
  · intro settings goal tabId runId a hen
    unfold AgentLoop.start
    rw [if_pos (by simp [hen])]

/-- C9 witness: a second `start` during a planning-state run fails with the
run-state error and leaves the state untouched; a disabled agent fails with
the configuration error. -/
theorem c9_start_guards_witness :
    AgentLoop.start settings0 "goal two" 2 "run_2" st0 = (st0, .error .alreadyRunning) ∧
    AgentLoop.start { settings0 with enabled := false } "goal two" 2 "run_2" st0 =
      (st0, .error .disabled) :=
  ⟨c9_start_guards.1 settings0 "goal two" 2 "run_2" st0 rfl
      (by decide) (by decide) (by decide) (by decide),
    c9_start_guards.2 { settings0 with enabled := false } "goal two" 2 "run_2" st0 rfl⟩

/-- C10: in the act phase, a `navigate` action (with its non-empty url)
always increments the navigations counter and the depth, records the url in
the visited set, and bumps `actionsTaken` — for every allowlist, hostname
extractor and dry-run setting; the browser is not actually asked to
navigate when the allowlist blocks the url or dry-run is on; and the
`extract_dom` action bumps exactly `actionsTaken`. -/
theorem c10_act_phase_counters :
    (∀ (hostOf : String → String) (settings : AgentLoop.AgentSettings)
        (st : AgentLoop.AgentState) (tid : Int) (url anchor : String),
      url ≠ "" →
      ∃ st' nav,
        AgentLoop.actPhase hostOf settings (.navigate tid url anchor) st = .ok (st', nav) ∧
        st'.status.navigations = st.status.navigations + 1 ∧
        st'.status.depth = st.status.depth + 1 ∧
        st'.status.actionsTaken = st.status.actionsTaken + 1 ∧
        st'.visited = AgentLoop.addVisited st.visited url ∧
        url ∈ st'.visited ∧
        ((AgentLoop.isAllowedByAllowlist hostOf url settings.allowlistDomains = false ∨
            settings.dryRun = true) → nav = false)) ∧
    (∀ (hostOf : String → String) (settings : AgentLoop.AgentSettings)
        (st : AgentLoop.AgentState) (tid : Int),
      AgentLoop.actPhase hostOf settings (.extract_dom tid) st =
        .ok ({ st with status := { st.status with
                 actionsTaken := st.status.actionsTaken + 1 } }, false)) := by
  constructor
  · intro hostOf settings st tid url anchor hurl
    have heq : AgentLoop.actPhase hostOf settings (.navigate tid url anchor) st =
        .ok ({ st with
                status := { st.status with
                             navigations := st.status.navigations + 1,
                             depth := st.status.depth + 1,
                             actionsTaken := st.status.actionsTaken + 1 },
                visited := AgentLoop.addVisited st.visited url },
              !(!AgentLoop.isAllowedByAllowlist hostOf url settings.allowlistDomains) &&
                !settings.dryRun) := by
      simp [AgentLoop.actPhase, hurl]
    refine ⟨_, _, heq, rfl, rfl, rfl, rfl, ?_, ?_⟩
    · unfold AgentLoop.addVisited
      by_cases h : st.visited.contains url
      · rw [if_pos h]
        exact List.mem_of_elem_eq_true h
      · rw [if_neg h]
        exact List.mem_append_right _ (List.mem_singleton.mpr rfl)
    · intro hcase
      rcases hcase with hb | hd
      · simp [hb]
      · simp [hd]
  · intro hostOf settings st tid
    rfl

/-- C10 witness: a navigate with dry-run on and an allowlist that blocks
the url still bumps navigations, depth, visited and actionsTaken, and does
not call the browser. -/
theorem c10_act_phase_counters_witness :
    (∃ st' nav,
      AgentLoop.actPhase hostOf0
          { settings0 with dryRun := true, allowlistDomains := ["google.com"] }
          (.navigate 1 "https://a.com/x" "a") st0 = .ok (st', nav) ∧
      st'.status.navigations = st0.status.navigations + 1 ∧
      st'.status.depth = st0.status.depth + 1 ∧
      st'.status.actionsTaken = st0.status.actionsTaken + 1 ∧
      st'.visited = AgentLoop.addVisited st0.visited "https://a.com/x" ∧
      "https://a.com/x" ∈ st'.visited ∧
      ((AgentLoop.isAllowedByAllowlist hostOf0 "https://a.com/x" ["google.com"] = false ∨
          true = true) → nav = false)) ∧
    AgentLoop.actPhase hostOf0 settings0 (.extract_dom 1) st0 =
      .ok ({ st0 with status := { st0.status with
               actionsTaken := st0.status.actionsTaken + 1 } }, false) :=
  ⟨c10_act_phase_counters.1 hostOf0
      { settings0 with dryRun := true, allowlistDomains := ["google.com"] }
      st0 1 "https://a.com/x" "a" (by decide),
    c10_act_phase_counters.2 hostOf0 settings0 st0 1⟩

/-- C6 counterexample: with every load succeeding, loading "gpt2" and then
requesting a different model returns the cached "gpt2" pipeline unchanged —
`ensureGenerationPipeline` never compares the cached pipeline's model name
with the requested one, so no eviction happens and the cache does not track
the most recently requested model. -/
theorem c6_counterexample_no_eviction :
    LocalModel.ensureGenerationPipeline (fun _ => true)
        (LocalModel.ensureGenerationPipeline (fun _ => true) none "gpt2").1 "distilgpt2" =
      (some "gpt2", .ok "gpt2") ∧
    ("gpt2" : String) ≠ "distilgpt2" :=
  ⟨rfl, by decide⟩

theorem pipelineAfter_some (loadOk : String → Bool) (p : String) (ms : List String) :
    LocalModel.pipelineAfter loadOk (some p) ms = some p := by
  induction ms with
  | nil => rfl
  | cons m ms ih => simpa [LocalModel.pipelineAfter, LocalModel.ensureGenerationPipeline] using ih

/-- C6 amended: the backend caches at most one loaded pipeline, but it is
keyed by nothing: once a pipeline is cached, every later call returns it
regardless of the requested model name, and after any sequence of calls the
cache holds the first successfully loaded model of the sequence (not the
most recently requested one). -/
theorem c6_amended_first_load_sticks :
    (∀ (loadOk : String → Bool) (p m : String),
      LocalModel.ensureGenerationPipeline loadOk (some p) m = (some p, .ok p)) ∧
    (∀ (loadOk : String → Bool) (ms : List String),
      LocalModel.pipelineAfter loadOk none ms = ms.find? loadOk) := by
  constructor
  · intro loadOk p m
    rfl
  · intro loadOk ms
    induction ms with
    | nil => rfl
    | cons m ms ih =>
      by_cases h : loadOk m
      · simp [LocalModel.pipelineAfter, LocalModel.ensureGenerationPipeline, h,
              pipelineAfter_some, List.find?]
      · simp [LocalModel.pipelineAfter, LocalModel.ensureGenerationPipeline, h,
              List.find?, ih]

/-- C7 counterexample: on the exact goal "find wireless mouse on amazon.in"
the bare-hostname rule of `deterministicPlanner` fires first ("amazon.in"
matches `urlRegex`), so step 0 opens `https://amazon.in` — not an Amazon
search URL containing the URL-encoded query "wireless mouse" — and step 2
returns `finish`, not `extract`. -/
theorem c7_counterexample_bare_hostname_rule :
    LocalModel.deterministicPlanner "find wireless mouse on amazon.in" 0 =
      AgentStepRoute.mkOpenTab "https://amazon.in" ∧
    encodeURIComponent "wireless mouse" = "wireless%20mouse" ∧
    jsIncludes "https://amazon.in" "wireless%20mouse" = false ∧
    jsIncludes "https://amazon.in" "wireless" = false ∧
    LocalModel.deterministicPlanner "find wireless mouse on amazon.in" 2 =
      LocalModel.mkFinishUrl "completed deterministic navigation" "https://amazon.in" :=
  ⟨rfl, rfl, by decide, by decide, rfl⟩

/-- C7 amended: on the goal "find wireless mouse on amazon.in" the planner's
bare-hostname rule takes priority over the Amazon search flow: step 0 is
`open_tab` to `https://amazon.in`, step 1 a `click` on the generic anchor
selector, and steps 2 and 3 are `finish`.  (The claimed search flow —
Amazon search URL, result click, extract, finish — runs only when the goal
carries no bare hostname, e.g. "find wireless mouse on amazon".) -/
theorem c7_amended_steps :
    LocalModel.deterministicPlanner "find wireless mouse on amazon.in" 0 =
      AgentStepRoute.mkOpenTab "https://amazon.in" ∧
    LocalModel.deterministicPlanner "find wireless mouse on amazon.in" 1 =
      LocalModel.mkClick "a[href]:not([role])" ∧
    LocalModel.deterministicPlanner "find wireless mouse on amazon.in" 2 =
      LocalModel.mkFinishUrl "completed deterministic navigation" "https://amazon.in" ∧
    LocalModel.deterministicPlanner "find wireless mouse on amazon.in" 3 =
      LocalModel.mkFinishUrl "completed deterministic navigation" "https://amazon.in" ∧
    LocalModel.deterministicPlanner "find wireless mouse on amazon" 0 =
      AgentStepRoute.mkOpenTab
        ("https://www.amazon.in/s?k=" ++ encodeURIComponent "wireless mouse on amazon") ∧
    LocalModel.deterministicPlanner "find wireless mouse on amazon" 2 =
      LocalModel.mkExtract "text" :=
  ⟨rfl, rfl, rfl, rfl, rfl, rfl⟩

theorem sortDesc_head_first_max (key : α → Nat) (l : List α) (h : l ≠ []) :
    ∃ (i : Nat) (b : α), l[i]? = some b ∧ (AgentLoop.sortDesc key l).head? = some b ∧
      (∀ c ∈ l, key c ≤ key b) ∧
      (∀ (j : Nat), j < i → ∀ (c : α), l[j]? = some c → key c < key b) := by
  induction l with
  | nil => exact absurd rfl h
  | cons a l ih =>
    cases l with
    | nil =>
      refine ⟨0, a, rfl, rfl, ?_, ?_⟩
      · intro c hc
        rw [List.mem_singleton.mp hc]
      · intro j hj
        omega
    | cons x xs =>
      obtain ⟨i, b, hib, hhead, hmax, hstrict⟩ := ih (by simp)
      obtain ⟨t, ht⟩ : ∃ t, AgentLoop.sortDesc key (x :: xs) = b :: t := by
        cases hsd : AgentLoop.sortDesc key (x :: xs) with
        | nil =>
          rw [hsd] at hhead
          exact absurd hhead (by simp)
        | cons y ys =>
          rw [hsd] at hhead
          simp only [List.head?_cons, Option.some_inj] at hhead
          exact ⟨ys, by rw [hhead]⟩
      have hstep : AgentLoop.sortDesc key (a :: x :: xs) =
          AgentLoop.insertDesc key a (b :: t) := by
        show AgentLoop.insertDesc key a (AgentLoop.sortDesc key (x :: xs)) = _
        rw [ht]
      by_cases hcmp : key b ≤ key a
      · refine ⟨0, a, rfl, ?_, ?_, ?_⟩
        · rw [hstep]
          simp [AgentLoop.insertDesc, hcmp]
        · intro c hc
          rcases List.mem_cons.mp hc with rfl | hcl
          · exact le_refl _
          · exact le_trans (hmax c hcl) hcmp
        · intro j hj
          omega
      · push_neg at hcmp
        refine ⟨i + 1, b, by simpa using hib, ?_, ?_, ?_⟩
        · rw [hstep]
          simp [AgentLoop.insertDesc, hcmp, Nat.not_le.mpr hcmp]
        · intro c hc
          rcases List.mem_cons.mp hc with rfl | hcl
          · exact le_of_lt hcmp
          · exact hmax c hcl
        · intro j hj c hjc
          cases j with
          | zero =>
            simp only [List.getElem?_cons_zero, Option.some_inj] at hjc
            rw [← hjc]
            exact hcmp
          | succ j' =>
            exact hstrict j' (by omega) c (by simpa using hjc)

theorem planNextAction_setState (hostOf : String → String)
    (settings : AgentLoop.AgentSettings) (st : AgentLoop.AgentState)
    (s : AgentLoop.AgentRunState) :
    AgentLoop.planNextAction hostOf settings (AgentLoop.setState st s) =
      AgentLoop.planNextAction hostOf settings st := rfl

/-- C8 counterexample: the code filters out every href containing `#`
anywhere, not only fragment-only hrefs.  With one unvisited, allowed link
`https://a.com/p#s` carrying goal-relevant text, the claim's filter keeps
the link, but `planNextAction` is left with no candidates and returns
`none` (so the run completes). -/
theorem c8_counterexample_hash_filter :
    AgentLoop.planNextAction hostOf0 settings0 st0 = none ∧
    specKeepsLink hostOf0 settings0 st0.visited
      { href := "https://a.com/p#s", text := "wireless" } = true :=
  ⟨rfl, by decide⟩

/-- C8 amended: with a prior snapshot, planning filters the links by
removing exactly those with empty href, hrefs containing `#` anywhere (not
only fragment-only hrefs), already-visited hrefs and allowlist-blocked
hrefs; each remaining link is scored (×4) as `4·(number of goal terms
occurring case-insensitively in text + href) + 1` when the anchor text is
non-blank after trimming; the selected link attains the maximal score and
every earlier candidate scores strictly less (original order breaks ties);
and when no candidates remain the iteration transitions the run to
`completed`. -/
theorem c8_amended_link_selection :
    (∀ (hostOf : String → String) (settings : AgentLoop.AgentSettings)
        (st : AgentLoop.AgentState) (tabId : Int) (snap : AgentLoop.AgentDomSnapshot),
      st.status.tabId = some tabId →
      st.lastSnapshot = some snap →
      (AgentLoop.candidateLinks hostOf settings st.visited (snap.links.getD []) = [] →
        AgentLoop.planNextAction hostOf settings st = none) ∧
      (AgentLoop.candidateLinks hostOf settings st.visited (snap.links.getD []) ≠ [] →
        ∃ (i : Nat) (best : AgentLoop.AgentPageLink),
          (AgentLoop.candidateLinks hostOf settings st.visited (snap.links.getD []))[i]? =
            some best ∧
          AgentLoop.planNextAction hostOf settings st =
            some (.navigate tabId best.href best.text) ∧
          (∀ c ∈ AgentLoop.candidateLinks hostOf settings st.visited (snap.links.getD []),
            AgentLoop.scoreLink4 st.goalTerms c.text c.href ≤
              AgentLoop.scoreLink4 st.goalTerms best.text best.href) ∧
          (∀ (j : Nat), j < i → ∀ (c : AgentLoop.AgentPageLink),
            (AgentLoop.candidateLinks hostOf settings st.visited (snap.links.getD []))[j]? =
              some c →
            AgentLoop.scoreLink4 st.goalTerms c.text c.href <
              AgentLoop.scoreLink4 st.goalTerms best.text best.href))) ∧
    (∀ (hostOf : String → String) (settings : AgentLoop.AgentSettings)
        (snapOracle : AgentLoop.AgentDomSnapshot) (st : AgentLoop.AgentState),
      AgentLoop.budgetsExceeded settings st = none →
      AgentLoop.planNextAction hostOf settings st = none →
      AgentLoop.loopIter hostOf settings snapOracle st =
        .completedRun (AgentLoop.setState (AgentLoop.setState st .planning) .completed)) := by
  constructor
  · intro hostOf settings st tabId snap htab hsnap
    constructor
    · intro hempty
      simp [AgentLoop.planNextAction, htab, hsnap, hempty]
    · intro hne
      obtain ⟨i, best, hib, hhead, hmax, hstrict⟩ :=
        sortDesc_head_first_max
          (fun l => AgentLoop.scoreLink4 st.goalTerms l.text l.href)
          (AgentLoop.candidateLinks hostOf settings st.visited (snap.links.getD [])) hne
      refine ⟨i, best, hib, ?_, hmax, hstrict⟩
      simp [AgentLoop.planNextAction, htab, hsnap, List.isEmpty_iff, hne, hhead]
  · intro hostOf settings snapOracle st hbudget hplan
    have hplan' : AgentLoop.planNextAction hostOf settings (AgentLoop.setState st .planning) = none := by
      rw [planNextAction_setState]
      exact hplan
    simp [AgentLoop.loopIter, hbudget, hplan']

/-- C8 witness: at `st0` (one `#`-bearing link) the candidate list is empty,
planning yields no action and the iteration completes the run; at `st1`
(two clean links) planning selects a link. -/
theorem c8_amended_link_selection_witness :
    AgentLoop.planNextAction hostOf0 settings0 st0 = none ∧
    AgentLoop.loopIter hostOf0 settings0 snap0 st0 =
      .completedRun (AgentLoop.setState (AgentLoop.setState st0 .planning) .completed) ∧
    (AgentLoop.planNextAction hostOf0 settings0 st1).isSome = true := by
  have h1 : AgentLoop.planNextAction hostOf0 settings0 st0 = none :=
    ((c8_amended_link_selection.1 hostOf0 settings0 st0 1 snap0 rfl rfl).1 (by decide))
  refine ⟨h1, c8_amended_link_selection.2 hostOf0 settings0 snap0 st0 rfl h1, ?_⟩
  obtain ⟨i, best, _, hplan, _, _⟩ :=
    (c8_amended_link_selection.1 hostOf0 settings0 st1 1 snap1 rfl rfl).2 (by decide)
  rw [hplan]
  rfl

namespace AgentStepRoute

theorem parseModelStep_done_not_bool (fs : List (String × Json)) (v : Json)
    (hd : getField fs "done" = some v) (hb : asBool v = none) :
    parseModelStep (.obj fs) = none := by
  have h1 : optField fs "done" asBool = none := by simp [optField, hd, hb]
  cases h2 : optField fs "action" parseAction <;> cases h3 : optField fs "reason" asStr <;>
    simp [parseModelStep, h1, h2, h3]

theorem parseModelStep_action_invalid (fs : List (String × Json)) (v : Json)
    (ha : getField fs "action" = some v) (hpa : parseAction v = none) :
    parseModelStep (.obj fs) = none := by
  have h1 : optField fs "action" parseAction = none := by simp [optField, ha, hpa]
  cases h2 : optField fs "done" asBool <;> cases h3 : optField fs "reason" asStr <;>
    simp [parseModelStep, h1, h2, h3]

theorem parseAction_click_requires_target (d : List (String × Json))
    (hsel : getField d "selector" = none) (htext : getField d "text" = none) :
    parseAction (.obj [("type", .str "click"), ("data", .obj d)]) = none := by
  have h1 : optField d "selector" strMin1 = some none := by simp [optField, hsel]
  have h2 : optField d "text" strMin1 = some none := by simp [optField, htext]
  cases h3 : optField d "tabId" asNum with
  | none => simp [parseAction, getField, asObj, h1, h2, h3]
  | some tid => simp [parseAction, getField, asObj, h1, h2, h3]

theorem parseAction_fill_form_empty (d : List (String × Json))
    (hf : getField d "fields" = some (.obj [])) :
    parseAction (.obj [("type", .str "fill_form"), ("data", .obj d)]) = none := by
  cases h3 : optField d "tabId" asNum with
  | none => simp [parseAction, getField, asObj, h3, hf, asStrRecord, List.mapM.loop]
  | some tid => simp [parseAction, getField, asObj, h3, hf, asStrRecord, List.mapM.loop]

theorem parseAction_close_tab_not_num (d : List (String × Json)) (v : Json)
    (ht : getField d "tabId" = some v) (hn : asNum v = none) :
    parseAction (.obj [("type", .str "close_tab"), ("data", .obj d)]) = none := by
  simp [parseAction, getField, asObj, ht, hn]

theorem parseModelStep_missing_done (fs : List (String × Json))
    (hd : getField fs "done" = none)
    (a : Option JsAction) (r : Option String)
    (ha : optField fs "action" parseAction = some a)
    (hr : optField fs "reason" asStr = some r) :
    parseModelStep (.obj fs) = some ⟨false, a, r⟩ := by
  have h1 : optField fs "done" asBool = some none := by simp [optField, hd]
  simp [parseModelStep, h1, ha, hr]

theorem debugShort_le_500 (raw : Json) : (debugShort raw).length ≤ 500 := by
  have h : ∀ s : String, (jsSlice s 500).length ≤ 500 := by
    intro s
    show (s.data.take 500).length ≤ 500
    rw [List.length_take]
    omega
  cases raw <;> exact h _

end AgentStepRoute

/-- C5 counterexample: the empty object — which lacks a `done` field
altogether — is accepted by `ModelStepSchema` (its `done` is
`optional().default(false)`), refuting the claim that every output lacking
a boolean `done` is rejected. -/
theorem c5_counterexample_missing_done_accepted :
    AgentStepRoute.parseModelStep (Json.obj []) = some ⟨false, none, none⟩ := rfl

/-- C5 amended: the validator rejects every output whose `done` field is
present but not boolean (an absent `done` is accepted and defaults to
`false`), and every output whose `action`, if present, fails the
seven-kind action schema — in particular a `click` without `selector` and
`text`, a `fill_form` with an empty field map, and a `close_tab` with a
non-numeric tab id; on rejection the handler's non-fatal outcome carries
`done = true` and a debug excerpt of at most 500 characters. -/
theorem c5_amended_schema_rejection :
    (∀ (fs : List (String × Json)) (v : Json),
      getField fs "done" = some v → asBool v = none →
      AgentStepRoute.parseModelStep (.obj fs) = none) ∧
    (∀ (fs : List (String × Json)) (v : Json),
      getField fs "action" = some v → AgentStepRoute.parseAction v = none →
      AgentStepRoute.parseModelStep (.obj fs) = none) ∧
    (∀ (d : List (String × Json)),
      getField d "selector" = none → getField d "text" = none →
      AgentStepRoute.parseAction (.obj [("type", .str "click"), ("data", .obj d)]) = none) ∧
    (∀ (d : List (String × Json)),
      getField d "fields" = some (.obj []) →
      AgentStepRoute.parseAction (.obj [("type", .str "fill_form"), ("data", .obj d)]) = none) ∧
    (∀ (d : List (String × Json)) (v : Json),
      getField d "tabId" = some v → asNum v = none →
      AgentStepRoute.parseAction (.obj [("type", .str "close_tab"), ("data", .obj d)]) = none) ∧
    (∀ raw : Json,
      (AgentStepRoute.invalidShapeResponse raw).done = true ∧
      (AgentStepRoute.invalidShapeResponse raw).ok = false ∧
      (AgentStepRoute.invalidShapeResponse raw).debug = some (AgentStepRoute.debugShort raw) ∧
      (AgentStepRoute.debugShort raw).length ≤ 500) ∧
    (∀ (fs : List (String × Json)) (a : Option AgentStepRoute.JsAction) (r : Option String),
      getField fs "done" = none →
      optField fs "action" AgentStepRoute.parseAction = some a →
      optField fs "reason" asStr = some r →
      AgentStepRoute.parseModelStep (.obj fs) = some ⟨false, a, r⟩) :=
  ⟨AgentStepRoute.parseModelStep_done_not_bool,
   AgentStepRoute.parseModelStep_action_invalid,
   AgentStepRoute.parseAction_click_requires_target,
   AgentStepRoute.parseAction_fill_form_empty,
   AgentStepRoute.parseAction_close_tab_not_num,
   fun raw => ⟨rfl, rfl, rfl, AgentStepRoute.debugShort_le_500 raw⟩,
   fun fs a r hd ha hr => AgentStepRoute.parseModelStep_missing_done fs hd a r ha hr⟩

/-- C5 witness: each rejection (and the default-`done` acceptance) at a
concrete input. -/
theorem c5_amended_schema_rejection_witness :
    AgentStepRoute.parseModelStep (.obj [("done", .str "x")]) = none ∧
    AgentStepRoute.parseModelStep
      (.obj [("done", .bool false), ("action", .num 3)]) = none ∧
    AgentStepRoute.parseAction
      (.obj [("type", .str "click"), ("data", .obj [("tabId", .num 1)])]) = none ∧
    AgentStepRoute.parseAction
      (.obj [("type", .str "fill_form"), ("data", .obj [("fields", .obj [])])]) = none ∧
    AgentStepRoute.parseAction
      (.obj [("type", .str "close_tab"), ("data", .obj [("tabId", .str "x")])]) = none ∧
    ((AgentStepRoute.invalidShapeResponse (.str "zzz")).done = true ∧
      (AgentStepRoute.debugShort (.str "zzz")).length ≤ 500) ∧
    AgentStepRoute.parseModelStep (.obj [("reason", .str "r")]) =
      some ⟨false, none, some "r"⟩ :=
  ⟨c5_amended_schema_rejection.1 [("done", .str "x")] (.str "x") rfl rfl,
   c5_amended_schema_rejection.2.1 [("done", .bool false), ("action", .num 3)] (.num 3)
     rfl rfl,
   c5_amended_schema_rejection.2.2.1 [("tabId", .num 1)] rfl rfl,
   c5_amended_schema_rejection.2.2.2.1 [("fields", .obj [])] rfl,
   c5_amended_schema_rejection.2.2.2.2.1 [("tabId", .str "x")] (.str "x") rfl rfl,
   ⟨(c5_amended_schema_rejection.2.2.2.2.2.1 (.str "zzz")).1,
    (c5_amended_schema_rejection.2.2.2.2.2.1 (.str "zzz")).2.2.2⟩,
   c5_amended_schema_rejection.2.2.2.2.2.2 [("reason", .str "r")] none (some "r")
     rfl rfl rfl⟩

/-- C4 counterexample: with the on-device backend failing (`throws`), a
remote-matching model preference ("gemini-1.5-flash") and a server API key
present, the handler still never runs the remote stage: the trace goes
straight from the on-device attempt to the deterministic planner, because
`callLocalModel` swallows the failure itself. -/
theorem c4_counterexample_remote_unreachable :
    AgentStepRoute.prefersRemote "gemini-1.5-flash" = true ∧
    (AgentStepRoute.handleAgentStep (fun _ => "") "gemini-1.5-flash" (some "key")
        .throws (.ok Json.null) body0).2 =
      [AgentStepRoute.Stage.localModel, AgentStepRoute.Stage.deterministic] :=
  ⟨by decide, rfl⟩

/-- C4 amended: the remote backend is never attempted, for any model
preference, API key, backend behaviour or request: `callLocalModel`
absorbs every on-device failure and falls back directly to the
deterministic planner, so the handler's remote-fallback branch is dead and
the stage order is on-device → deterministic (the deterministic stage
running exactly when the on-device result was absent, thrown or falsy). -/
theorem c4_amended_no_remote_stage (hostOf : String → String) (model : String)
    (apiKey : Option String) (o : AgentStepRoute.LocalOutcome)
    (remoteResult : Except String Json) (body : Json) :
    (AgentStepRoute.handleAgentStep hostOf model apiKey o remoteResult body).2 = [] ∨
    (AgentStepRoute.handleAgentStep hostOf model apiKey o remoteResult body).2 =
        [.localModel] ∨
    (AgentStepRoute.handleAgentStep hostOf model apiKey o remoteResult body).2 =
        [.localModel, .deterministic] := by
  unfold AgentStepRoute.handleAgentStep
  cases hreq : AgentStepRoute.parseStepRequest body with
  | none => exact Or.inl rfl
  | some req =>
    rcases hcall : AgentStepRoute.callLocalModel o req.goal with ⟨raw, used⟩
    cases used with
    | false =>
      refine Or.inr (Or.inl ?_)
      simp [AgentStepRoute.handleCore, hcall]
    | true =>
      refine Or.inr (Or.inr ?_)
      simp [AgentStepRoute.handleCore, hcall]

namespace AgentStepRoute

theorem parse_mkOpenTab (url : String) (h : url ≠ "") :
    parseModelStep (mkOpenTab url) = some ⟨false, some (.open_tab url), none⟩ := by
  simp [parseModelStep, mkOpenTab, optField, getField, parseAction, asObj, asBool,
        strMin1, asStr, h]

theorem parse_fallback_finish (goal : String) :
    parseModelStep (.obj [("done", .bool true),
      ("action", .obj [("type", .str "finish"),
        ("data", .obj [("reason", .str "deterministic-fallback: no actionable plan"),
                       ("goal", .str goal)])])]) =
      some ⟨true, some (.finish (some "deterministic-fallback: no actionable plan")), none⟩ :=
  rfl

/-- The possible shapes of the deterministic fallback planner's output. -/
theorem fallback_planner_shape (g : String) :
    (∃ rest, fallbackPlanner g = mkOpenTab ("https://www.google.com/search?q=" ++ rest)) ∨
    (∃ hostp pathp, fallbackPlanner g = mkOpenTab (("https://" ++ hostp) ++ pathp)) ∨
    fallbackPlanner g = .obj [("done", .bool true),
      ("action", .obj [("type", .str "finish"),
        ("data", .obj [("reason", .str "deterministic-fallback: no actionable plan"),
                       ("goal", .str (jsTrim g))])])] := by
  simp only [fallbackPlanner]
  cases Rx.jsMatch Rx.searchRe (lowerStr (jsTrim g)) with
  | some caps => exact Or.inl ⟨_, rfl⟩
  | none =>
    cases Rx.jsMatch Rx.priceRe (lowerStr (jsTrim g)) with
    | some caps => exact Or.inl ⟨_, rfl⟩
    | none =>
      cases Rx.jsMatch Rx.openRe (lowerStr (jsTrim g)) with
      | some caps => exact Or.inr (Or.inl ⟨_, _, rfl⟩)
      | none => exact Or.inr (Or.inr rfl)

theorem respondParsed_good (hostOf : String → String) (allow : List String)
    (out : ModelStep) (a : JsAction) (ha : out.action = some a)
    (hfin : ∀ r, a = .finish r → (jsOr r out.reason).isSome = true) :
    GoodResult (respondParsed hostOf allow out) := by
  cases a with
  | finish r =>
    right
    refine ⟨by simp [respondParsed, ha], ?_⟩
    simpa [respondParsed, ha] using hfin r rfl
  | open_tab url =>
    by_cases h1 : isRestrictedUrl url
    · right
      simp [respondParsed, ha, actionUrl, h1]
    · by_cases h2 : isAllowedByAllowlist hostOf url allow
      · left
        exact ⟨.open_tab url, by simp [respondParsed, ha, actionUrl, h1, h2]⟩
      · right
        simp [respondParsed, ha, actionUrl, h1, h2]
  | navigate url tid =>
    by_cases h1 : isRestrictedUrl url
    · right
      simp [respondParsed, ha, actionUrl, h1]
    · by_cases h2 : isAllowedByAllowlist hostOf url allow
      · left
        exact ⟨.navigate url tid, by simp [respondParsed, ha, actionUrl, h1, h2]⟩
      · right
        simp [respondParsed, ha, actionUrl, h1, h2]
  | click tid sel tx =>
    left
    exact ⟨.click tid sel tx, by simp [respondParsed, ha, actionUrl]⟩
  | fill_form tid fields =>
    left
    exact ⟨.fill_form tid fields, by simp [respondParsed, ha, actionUrl]⟩
  | extract m sel =>
    left
    exact ⟨.extract m sel, by simp [respondParsed, ha, actionUrl]⟩
  | close_tab tid =>
    left
    exact ⟨.close_tab tid, by simp [respondParsed, ha, actionUrl]⟩

theorem fallback_planner_good (hostOf : String → String) (allow : List String)
    (g : String) : GoodResult (finishWith hostOf allow (fallbackPlanner g)) := by
  rcases fallback_planner_shape g with ⟨rest, heq⟩ | ⟨hostp, pathp, heq⟩ | heq
  · have hne : "https://www.google.com/search?q=" ++ rest ≠ "" :=
      string_append_ne_empty_left _ _ (by decide)
    rw [heq]
    unfold finishWith
    rw [parse_mkOpenTab _ hne]
    exact respondParsed_good hostOf allow _ _ rfl (fun r hr => by cases hr)
  · have hne : ("https://" ++ hostp) ++ pathp ≠ "" :=
      string_append_ne_empty_left _ _ (string_append_ne_empty_left _ _ (by decide))
    rw [heq]
    unfold finishWith
    rw [parse_mkOpenTab _ hne]
    exact respondParsed_good hostOf allow _ _ rfl (fun r hr => by cases hr)
  · rw [heq]
    unfold finishWith
    rw [parse_fallback_finish]
    exact respondParsed_good hostOf allow _ _ rfl
      (fun r hr => by cases hr; rfl)

theorem respondParsed_ok_false (hostOf : String → String) (allow : List String)
    (out : ModelStep) (h : (respondParsed hostOf allow out).ok = false) :
    (respondParsed hostOf allow out).done = true ∧
      (respondParsed hostOf allow out).reason.isSome = true := by
  cases ha : out.action with
  | none =>
    simp [respondParsed, ha] at h
  | some a =>
    cases a with
    | finish r =>
      simp [respondParsed, ha] at h
    | open_tab url =>
      by_cases h1 : isRestrictedUrl url
      · simp [respondParsed, ha, actionUrl, h1]
      · by_cases h2 : isAllowedByAllowlist hostOf url allow
        · simp [respondParsed, ha, actionUrl, h1, h2] at h
        · simp [respondParsed, ha, actionUrl, h1, h2]
    | navigate url tid =>
      by_cases h1 : isRestrictedUrl url
      · simp [respondParsed, ha, actionUrl, h1]
      · by_cases h2 : isAllowedByAllowlist hostOf url allow
        · simp [respondParsed, ha, actionUrl, h1, h2] at h
        · simp [respondParsed, ha, actionUrl, h1, h2]
    | click tid sel tx => simp [respondParsed, ha, actionUrl] at h
    | fill_form tid fields => simp [respondParsed, ha, actionUrl] at h
    | extract m sel => simp [respondParsed, ha, actionUrl] at h
    | close_tab tid => simp [respondParsed, ha, actionUrl] at h

theorem finishWith_ok_false (hostOf : String → String) (allow : List String) (raw : Json)
    (h : (finishWith hostOf allow raw).ok = false) :
    (finishWith hostOf allow raw).done = true ∧
      (finishWith hostOf allow raw).reason.isSome = true := by
  unfold finishWith at h ⊢
  cases hp : parseModelStep raw with
  | none => exact ⟨rfl, rfl⟩
  | some out =>
    rw [hp] at h
    exact respondParsed_ok_false hostOf allow out h

end AgentStepRoute

/-- C1 counterexample: a backend success whose output parses but carries no
action (`{"done": false}`) yields a 200 response with `ok = true`,
`done = false` and no action — neither a structurally valid action nor a
terminal `done = true` result, refuting the claim for arbitrary backend
outputs (the handler still does not throw). -/
theorem c1_counterexample_actionless_ok :
    (AgentStepRoute.handleAgentStep (fun _ => "") "gemini-1.5-flash" none
        (.returns (Json.obj [("done", Json.bool false)])) (.ok Json.null) body0).1 =
      { status := 200, ok := true, done := false, action := none, reason := none,
        debug := none } := rfl

/-- C1 amended: the handler never raises — every request, backend outcome
and hostname extractor yields a response, and every non-ok response is a
terminal `done = true` response carrying a reason string; moreover whenever
the on-device backend fails (so the chain ends in the deterministic
planner; the remote backend is unreachable), the step result is either a
structurally valid action or a terminal `done = true` result with a reason
string.  (A successful backend output without an action is passed through
as `ok = true, done = false` with no action, which is what the original
claim ruled out.) -/
theorem c1_amended_resolution_safety :
    (∀ (hostOf : String → String) (model : String) (apiKey : Option String)
        (o : AgentStepRoute.LocalOutcome) (remoteResult : Except String Json) (body : Json),
      (AgentStepRoute.handleAgentStep hostOf model apiKey o remoteResult body).1.ok = false →
      (AgentStepRoute.handleAgentStep hostOf model apiKey o remoteResult body).1.done = true ∧
        (AgentStepRoute.handleAgentStep hostOf model apiKey o remoteResult body).1.reason.isSome =
          true) ∧
    (∀ (hostOf : String → String) (model : String) (apiKey : Option String)
        (remoteResult : Except String Json) (body : Json),
      GoodResult
        (AgentStepRoute.handleAgentStep hostOf model apiKey .throws remoteResult body).1) := by
  constructor
  · intro hostOf model apiKey o remoteResult body
    unfold AgentStepRoute.handleAgentStep
    cases hreq : AgentStepRoute.parseStepRequest body with
    | none => exact fun _ => ⟨rfl, rfl⟩
    | some req =>
      rcases hcall : AgentStepRoute.callLocalModel o req.goal with ⟨raw, used⟩
      simp only [hcall, AgentStepRoute.handleCore]
      exact AgentStepRoute.finishWith_ok_false hostOf req.allowlistDomains raw
  · intro hostOf model apiKey remoteResult body
    unfold AgentStepRoute.handleAgentStep
    cases hreq : AgentStepRoute.parseStepRequest body with
    | none => exact Or.inr ⟨rfl, rfl⟩
    | some req =>
      show GoodResult (AgentStepRoute.handleCore hostOf model apiKey
        (.ok (AgentStepRoute.callLocalModel .throws req.goal)) remoteResult req).1
      exact AgentStepRoute.fallback_planner_good hostOf req.allowlistDomains req.goal

/-- C1 witness: the 400 path (a non-parsing body) is a non-ok response, and
the theorem forces it to be terminal with a reason; the backend-failure
path on `body0` yields a step result satisfying the amended disjunction. -/
theorem c1_amended_resolution_safety_witness :
    ((AgentStepRoute.handleAgentStep (fun _ => "") "gemini-1.5-flash" none
        .throws (.ok Json.null) Json.null).1.done = true ∧
      (AgentStepRoute.handleAgentStep (fun _ => "") "gemini-1.5-flash" none
        .throws (.ok Json.null) Json.null).1.reason.isSome = true) ∧
    GoodResult
      (AgentStepRoute.handleAgentStep (fun _ => "") "gemini-1.5-flash" none
        .throws (.ok Json.null) body0).1 :=
  ⟨c1_amended_resolution_safety.1 (fun _ => "") "gemini-1.5-flash" none
      .throws (.ok Json.null) Json.null rfl,
    c1_amended_resolution_safety.2 (fun _ => "") "gemini-1.5-flash" none
      (.ok Json.null) body0⟩
